import Mathlib

/-!
# Verification of the batch subtitle pipeline (`src/subtitle.py`)

A shallow embedding of the file-processing pipeline: constants, path
derivations, the per-file pipeline `process_video`, discovery
`collect_video_files`, the dependency check and the batch driver `main`.

The filesystem is modelled explicitly: a `World` holds the set of regular
files, the set of directories, and the trace of external-process
invocations.  The two external tools (ffmpeg and the whisper.cpp `main`
executable) are opaque collaborators; their observable behaviour for one
task is captured by an `Oracle` (exit status, whether an output file
appears, whether a deletion attempt fails).  Python exceptions are
modelled by explicit result constructors (`raised` / `exn`) carrying the
world at the raise point.
-/

set_option autoImplicit false

namespace Subtitle

/-- Filesystem paths, as lists of components (no separators). -/
abbrev FsPath := List String

/-! ## Constants (subtitle.py lines 26-29) -/

def VIDEO_DIR : String := "video"

def SUBTITLE_DIR : String := "subtitle"

def MODEL_FILE : String := "ggml-large-v3.bin"

def SUPPORTED_EXTENSIONS : List String := [".mp4", ".mov", ".m4a", ".mp3", ".mkv", ".wav"]

def VIDEO_DIR_P : FsPath := [VIDEO_DIR]

def SUBTITLE_DIR_P : FsPath := [SUBTITLE_DIR]

/-! ## String helpers: `pathlib` stem / suffix / lower -/

/-- Lower-casing a string character-wise (`str.lower()` on ASCII names). -/
def strLower (s : String) : String := ⟨s.data.map Char.toLower⟩

/-- Index of the last occurrence of a dot in a character list (`str.rfind`). -/
def lastDotFrom : List Char → Option Nat
  | [] => none
  | c :: cs =>
    match lastDotFrom cs with
    | some i => some (i + 1)
    | none => if c = '.' then some 0 else none

/-- `pathlib` stem/suffix split of a file name: split at the last dot,
provided it is neither the leading nor the trailing character. -/
def splitName (n : String) : String × String :=
  match lastDotFrom n.data with
  | none => (n, "")
  | some i =>
    if 0 < i ∧ i + 1 < n.data.length then (⟨n.data.take i⟩, ⟨n.data.drop i⟩)
    else (n, "")

def nameStem (n : String) : String := (splitName n).1

def nameSuffix (n : String) : String := (splitName n).2

/-! ## Path helpers -/

def parentDir (p : FsPath) : FsPath := p.dropLast

def baseName (p : FsPath) : String := p.getLastD ""

/-- `Path.relative_to`: strip a root, `none` models the `ValueError`. -/
def relativeTo : FsPath → FsPath → Option FsPath
  | [], p => some p
  | _ :: _, [] => none
  | a :: as, b :: bs => if a = b then relativeTo as bs else none

/-- All nonempty prefixes of a path: the chain of directories that
`mkdir(parents=True)` has to produce. -/
def ancestors (p : FsPath) : List FsPath :=
  (List.range p.length).map (fun i => p.take (i + 1))

/-! ## Worlds, oracles, results -/

/-- One recorded external-process invocation. -/
inductive ExtCall
  | ffmpeg (input output : FsPath)
  | whisper (wav : FsPath)
deriving DecidableEq, Repr

/-- Filesystem state plus the trace of external invocations. -/
structure World where
  files : List FsPath
  dirs : List FsPath
  calls : List ExtCall
deriving DecidableEq, Repr

def World.fileExists (w : World) (p : FsPath) : Bool := decide (p ∈ w.files)

def World.dirExists (w : World) (p : FsPath) : Bool := decide (p ∈ w.dirs)

/-- `Path.exists()`: true for files and directories alike. -/
def World.pathExists (w : World) (p : FsPath) : Bool := w.fileExists p || w.dirExists p

def World.addFile (w : World) (p : FsPath) : World := { w with files := p :: w.files }

def World.rmFile (w : World) (p : FsPath) : World :=
  { w with files := w.files.filter (fun q => !decide (q = p)) }

def World.addCall (w : World) (c : ExtCall) : World := { w with calls := w.calls ++ [c] }

/-- `mkdir(parents=True, exist_ok=True)`: creates the whole chain of
directories; raises (`none`) when some member of the chain already exists
as a regular file. -/
def World.mkdirParents (w : World) (p : FsPath) : Option World :=
  if (ancestors p).any (fun q => w.fileExists q) then none
  else some { w with dirs := w.dirs ++ ancestors p }

/-- Observable behaviour of the external tools and of the two possible
`unlink` calls during one task. -/
structure Oracle where
  /-- ffmpeg exits with status zero. -/
  ffmpegOk : Bool
  /-- ffmpeg leaves (a possibly partial) output file even when it fails. -/
  ffmpegCreates : Bool
  /-- the whisper.cpp process exits with status zero. -/
  whisperExitOk : Bool
  /-- the whisper.cpp process writes its `<wav>.srt` artifact. -/
  whisperWrites : Bool
  /-- the cleanup `unlink` inside the `try` block raises. -/
  unlinkFails1 : Bool
  /-- the cleanup `unlink` inside the `except` handler raises. -/
  unlinkFails2 : Bool
deriving DecidableEq, Repr

/-- Result of `process_video`: either an uncaught exception propagates
(`raised`, carrying the world at that point) or the function returns a
boolean outcome. -/
inductive PRes
  | raised (w : World)
  | ret (b : Bool) (w : World)
deriving DecidableEq, Repr

def resWorld : PRes → World
  | .raised w => w
  | .ret _ w => w

/-- The returned outcome flag; `none` when an exception escaped. -/
def resFlag : PRes → Option Bool
  | .raised _ => none
  | .ret b _ => some b

/-- Result of the `try` block body: a value, or an exception reaching the
`except` handler. -/
inductive TRes
  | exn (w : World)
  | val (b : Bool) (w : World)
deriving DecidableEq, Repr

def tresWorld : TRes → World
  | .exn w => w
  | .val _ w => w

/-- The engine-side artifact path: whisper.cpp appends `.srt` to the
path of its input waveform (line 108). -/
def tsrtOf (wav : FsPath) : FsPath := parentDir wav ++ [baseName wav ++ ".srt"]

/-! ## Adapters (subtitle.py lines 59-134) -/

/-- `extract_audio_with_filters` (lines 59-93): run ffmpeg on
`input_file`, producing `output_file`; non-zero exit is caught and
reported as `false`.  A failing ffmpeg may still have (partially)
created the output file. -/
def extract_audio_with_filters (o : Oracle) (w : World) (input_file output_file : FsPath) :
    Bool × World :=
  let w := w.addCall (.ffmpeg input_file output_file)
  if o.ffmpegOk then (true, w.addFile output_file)
  else (false, if o.ffmpegCreates then w.addFile output_file else w)

/-- `generate_subtitle` (lines 96-134): run whisper.cpp on `wav_file`;
the engine appends `.srt` to its input path.  On zero exit the expected
artifact is checked with `os.path.isfile`; if present it is moved to
`output_srt`, otherwise the step fails.  Non-zero exit is caught and
reported as `false`. -/
def generate_subtitle (o : Oracle) (w : World) (wav_file output_srt : FsPath) :
    Bool × World :=
  let w := w.addCall (.whisper wav_file)
  let w := if o.whisperWrites then w.addFile (tsrtOf wav_file) else w
  if o.whisperExitOk then
    if w.fileExists (tsrtOf wav_file) then
      (true, (w.rmFile (tsrtOf wav_file)).addFile output_srt)
    else (false, w)
  else (false, w)

/-! ## Per-file pipeline (subtitle.py lines 137-205) -/

/-- The temporary waveform path (line 170): source parent directory,
stem plus `_temp`, `.wav` extension. -/
def temp_wav_path (video_path : FsPath) : FsPath :=
  parentDir video_path ++ [nameStem (baseName video_path) ++ "_temp.wav"]

/-- The specification's stated derivation of the temporary waveform
path (spec §3, Task): parent directory of the destination subtitle
file, stem, `_temp`, waveform extension.  Written from the spec's
words, to be compared with the code's derivation `temp_wav_path`. -/
def specTempWavPath (subtitle_dir rel : FsPath) : FsPath :=
  parentDir (subtitle_dir ++ parentDir rel ++ [nameStem (baseName rel) ++ ".srt"])
    ++ [nameStem (baseName rel) ++ "_temp.wav"]

/-- Tail of the `try` block (lines 186-198): transcription, then cleanup
of the temporary waveform; a failing `unlink` raises into the handler. -/
def pipelineStep2 (o : Oracle) (w : World) (keep_wav : Bool) (tw output_srt : FsPath) : TRes :=
  let r := generate_subtitle o w tw output_srt
  if !keep_wav && r.2.pathExists tw then
    if o.unlinkFails1 then .exn r.2
    else .val r.1 (r.2.rmFile tw)
  else .val r.1 r.2

/-- The `try` block (lines 173-198): extraction (unless the input is an
existing `.wav`, which is reused in place), then `pipelineStep2`.  A
failed extraction returns `false` immediately, with no cleanup. -/
def pipelineTry (o : Oracle) (w : World) (video_path tw output_srt : FsPath)
    (keep_wav : Bool) : TRes :=
  if !keep_wav || !w.pathExists video_path then
    let e := extract_audio_with_filters o w video_path tw
    if e.1 then pipelineStep2 o e.2 keep_wav tw output_srt
    else .val false e.2
  else pipelineStep2 o w keep_wav video_path output_srt

/-- The `except` handler (lines 200-205): print, attempt cleanup again
(this second `unlink` may itself raise, which then propagates), return
`false`. -/
def pipelineHandler (o : Oracle) (w : World) (keep_wav : Bool) (tw : FsPath) : PRes :=
  if !keep_wav && w.pathExists tw then
    if o.unlinkFails2 then .raised w
    else .ret false (w.rmFile tw)
  else .ret false w

/-- `process_video` (lines 137-205): extension gate, destination
computation and skip, directory creation (outside the `try`!), then the
`try`/`except` pipeline. -/
def process_video (o : Oracle) (w : World) (video_path subtitle_dir : FsPath) : PRes :=
  let file_ext := strLower (nameSuffix (baseName video_path))
  if file_ext ∈ SUPPORTED_EXTENSIONS then
    match relativeTo VIDEO_DIR_P video_path with
    | none => .raised w
    | some rel =>
      let output_srt_path := subtitle_dir ++ parentDir rel ++ [nameStem (baseName video_path) ++ ".srt"]
      if w.pathExists output_srt_path then .ret false w
      else
        match w.mkdirParents (parentDir output_srt_path) with
        | none => .raised w
        | some w1 =>
          let keep_wav := decide (file_ext = ".wav")
          match pipelineTry o w1 video_path (temp_wav_path video_path) output_srt_path keep_wav with
          | .val b w2 => .ret b w2
          | .exn w2 => pipelineHandler o w2 keep_wav (temp_wav_path video_path)
  else .ret false w

/-! ## Discovery (subtitle.py lines 208-222) -/

/-- `collect_video_files`: the `os.walk` enumeration is an input, given
as (directory relative to the input root, file name) pairs.  A file is
collected when its lower-cased extension is supported and its mirrored
subtitle destination does not yet exist. -/
def collect_video_files (w : World) (walk : List (FsPath × String)) : List FsPath :=
  walk.filterMap (fun rf =>
    if strLower (nameSuffix rf.2) ∈ SUPPORTED_EXTENSIONS then
      if w.pathExists (SUBTITLE_DIR_P ++ rf.1 ++ [nameStem rf.2 ++ ".srt"]) then none
      else some (VIDEO_DIR_P ++ rf.1 ++ [rf.2])
    else none)

/-! ## Dependency check and batch driver (subtitle.py lines 32-56, 225-282) -/

/-- Search-path resolvability of the two executables (`shutil.which`). -/
structure Env where
  ffmpegOnPath : Bool
  whisperMainOnPath : Bool
deriving DecidableEq, Repr

/-- `check_dependencies` (lines 32-56): the source accumulates an error
list and returns whether it is empty; the returned value is the
conjunction of the four checks. -/
def check_dependencies (env : Env) (w : World) : Bool :=
  env.ffmpegOnPath && env.whisperMainOnPath &&
    (w.fileExists [ MODEL_FILE ]) && w.dirExists VIDEO_DIR_P

/-- Batch result: either an exception escaped a task and crashed the
process (non-zero interpreter exit), or the loop finished with success
and failure counts. -/
inductive BatchRes
  | crashed (w : World)
  | finished (success failed : Nat) (w : World)
deriving DecidableEq, Repr

/-- The processing loop of `main` (lines 252-274): both the tqdm and the
fallback branch call `process_video` per file and bump one of the two
counters; an escaping exception aborts the loop. -/
def runBatch : World → List (Oracle × FsPath) → BatchRes
  | w, [] => .finished 0 0 w
  | w, (o, p) :: rest =>
    match process_video o w p SUBTITLE_DIR_P with
    | .raised w' => .crashed w'
    | .ret b w' =>
      match runBatch w' rest with
      | .crashed u => .crashed u
      | .finished s f u =>
        .finished (s + (if b then 1 else 0)) (f + (if b then 0 else 1)) u

/-- Specification combinator: how one task's boolean outcome is folded
into the batch counters (success bumps the success count, failure the
failed count); a later crash still crashes. -/
def bumpBatch (b : Bool) : BatchRes → BatchRes
  | .crashed u => .crashed u
  | .finished s f u => .finished (s + (if b then 1 else 0)) (f + (if b then 0 else 1)) u

/-- Pair each discovered file with the oracle describing its task's
external behaviour (trailing tasks get a default all-good oracle). -/
def defaultOracle : Oracle := ⟨true, true, true, true, false, false⟩

def pairOracles : List Oracle → List FsPath → List (Oracle × FsPath)
  | _, [] => []
  | [], p :: ps => (defaultOracle, p) :: pairOracles [] ps
  | o :: os, p :: ps => (o, p) :: pairOracles os ps

/-- Final process status of one `main` run.  `depExit` is the explicit
`sys.exit(1)`; `crash` is an uncaught exception (the interpreter exits
non-zero); `done` is a normal zero-status exit with the two summary
counters. -/
inductive MainOutcome
  | depExit
  | crash (w : World)
  | done (success failed : Nat) (w : World)
deriving DecidableEq, Repr

def exitNonzero : MainOutcome → Bool
  | .depExit => true
  | .crash _ => true
  | .done _ _ _ => false

/-- `main` (lines 225-282): dependency gate, `os.makedirs(SUBTITLE_DIR)`,
discovery, then the per-file loop. -/
def main (env : Env) (os : List Oracle) (w : World) (walk : List (FsPath × String)) :
    MainOutcome :=
  if check_dependencies env w then
    match w.mkdirParents SUBTITLE_DIR_P with
    | none => .crash w
    | some w1 =>
      let video_files := collect_video_files w1 walk
      if video_files.isEmpty then .done 0 0 w1
      else
        match runBatch w1 (pairOracles os video_files) with
        | .crashed w' => .crash w'
        | .finished s f w' => .done s f w'
  else .depExit

/-! ## Basic lemmas: paths and names -/

theorem snoc_inj {α : Type _} {l₁ l₂ : List α} {a b : α} :
    l₁ ++ [a] = l₂ ++ [b] ↔ l₁ = l₂ ∧ a = b := by
  constructor
  · intro h
    refine ⟨?_, ?_⟩
    · have h1 := congrArg List.dropLast h
      simpa using h1
    · have h2 := congrArg (fun l => l.getLastD a) h
      simpa using h2
  · rintro ⟨rfl, rfl⟩
    rfl

theorem ne_of_length_ne {s t : String} (h : s.length ≠ t.length) : s ≠ t :=
  fun e => h (e ▸ rfl)

theorem strLower_length (s : String) : (strLower s).length = s.length :=
  List.length_map s.data Char.toLower

theorem stem_append_suffix (n : String) : nameStem n ++ nameSuffix n = n := by
  unfold nameStem nameSuffix splitName
  cases h : lastDotFrom n.data with
  | none => simp
  | some i =>
    dsimp only
    by_cases hc : 0 < i ∧ i + 1 < n.data.length
    · rw [if_pos hc]
      apply String.ext
      have : (String.mk (n.data.take i) ++ String.mk (n.data.drop i)).data
          = n.data.take i ++ n.data.drop i := rfl
      rw [this, List.take_append_drop]
    · rw [if_neg hc]
      simp

theorem suffix_length_of_supported {s : String} (h : strLower s ∈ SUPPORTED_EXTENSIONS) :
    s.length = 4 := by
  have h4 : (strLower s).length = 4 := by
    simp only [SUPPORTED_EXTENSIONS, List.mem_cons, List.not_mem_nil, or_false] at h
    rcases h with h | h | h | h | h | h <;> rw [h] <;> rfl
  rw [strLower_length] at h4
  exact h4

theorem name_length_of_supported {n : String}
    (h : strLower (nameSuffix n) ∈ SUPPORTED_EXTENSIONS) :
    n.length = (nameStem n).length + 4 := by
  conv_lhs => rw [← stem_append_suffix n]
  rw [String.length_append, suffix_length_of_supported h]

theorem parentDir_concat (l : FsPath) (x : String) : parentDir (l ++ [x]) = l := by
  simp [parentDir]

theorem baseName_concat (l : FsPath) (x : String) : baseName (l ++ [x]) = x := by
  simp [baseName]

theorem relativeTo_append (d r : FsPath) : relativeTo d (d ++ r) = some r := by
  induction d with
  | nil => rfl
  | cons a as ih => simp [relativeTo, ih]

/-! ## Basic lemmas: world operations -/

theorem files_addFile (w : World) (p : FsPath) : (w.addFile p).files = p :: w.files := rfl

theorem dirs_addFile (w : World) (p : FsPath) : (w.addFile p).dirs = w.dirs := rfl

theorem calls_addFile (w : World) (p : FsPath) : (w.addFile p).calls = w.calls := rfl

theorem files_addCall (w : World) (c : ExtCall) : (w.addCall c).files = w.files := rfl

theorem dirs_addCall (w : World) (c : ExtCall) : (w.addCall c).dirs = w.dirs := rfl

theorem calls_addCall (w : World) (c : ExtCall) : (w.addCall c).calls = w.calls ++ [c] := rfl

theorem dirs_rmFile (w : World) (p : FsPath) : (w.rmFile p).dirs = w.dirs := rfl

theorem calls_rmFile (w : World) (p : FsPath) : (w.rmFile p).calls = w.calls := rfl

theorem mem_rmFile {w : World} {p q : FsPath} :
    q ∈ (w.rmFile p).files ↔ q ∈ w.files ∧ q ≠ p := by
  simp [World.rmFile, List.mem_filter]

theorem fileExists_iff {w : World} {p : FsPath} : w.fileExists p = true ↔ p ∈ w.files := by
  simp [World.fileExists]

theorem fileExists_false_iff {w : World} {p : FsPath} :
    w.fileExists p = false ↔ p ∉ w.files := by
  simp [World.fileExists]

theorem pathExists_iff {w : World} {p : FsPath} :
    w.pathExists p = true ↔ p ∈ w.files ∨ p ∈ w.dirs := by
  simp [World.pathExists, World.fileExists, World.dirExists]

theorem mkdirParents_some {w w' : World} {p : FsPath} (h : w.mkdirParents p = some w') :
    w'.files = w.files ∧ w'.calls = w.calls ∧ w'.dirs = w.dirs ++ ancestors p := by
  unfold World.mkdirParents at h
  split at h
  · exact absurd h (by simp)
  · cases h
    exact ⟨rfl, rfl, rfl⟩

theorem mkdirParents_of_clear {w : World} {p : FsPath}
    (h : ((ancestors p).any (fun q => w.fileExists q)) = false) :
    w.mkdirParents p = some { w with dirs := w.dirs ++ ancestors p } := by
  unfold World.mkdirParents
  rw [h]
  rfl

/-! ## Component lemmas: the audio-extraction adapter -/

theorem extract_ok {o : Oracle} (h : o.ffmpegOk = true) (w : World) (i out : FsPath) :
    extract_audio_with_filters o w i out = (true, (w.addCall (.ffmpeg i out)).addFile out) := by
  simp [extract_audio_with_filters, h]

theorem extract_preserves (o : Oracle) (w : World) (i out : FsPath) {q : FsPath}
    (hq : q ∈ w.files) : q ∈ (extract_audio_with_filters o w i out).2.files := by
  unfold extract_audio_with_filters
  split_ifs <;> simp [World.addFile, World.addCall, hq]

theorem extract_calls (o : Oracle) (w : World) (i out : FsPath) :
    (extract_audio_with_filters o w i out).2.calls = w.calls ++ [ExtCall.ffmpeg i out] := by
  unfold extract_audio_with_filters
  split_ifs <;> rfl

theorem extract_dirs (o : Oracle) (w : World) (i out : FsPath) :
    (extract_audio_with_filters o w i out).2.dirs = w.dirs := by
  unfold extract_audio_with_filters
  split_ifs <;> rfl

/-! ## Component lemmas: the transcription adapter -/

theorem generate_success {o : Oracle} (h1 : o.whisperExitOk = true)
    (h2 : o.whisperWrites = true) (w : World) (wav out : FsPath) :
    generate_subtitle o w wav out =
      (true, ((((w.addCall (.whisper wav)).addFile (tsrtOf wav)).rmFile (tsrtOf wav)).addFile out)) := by
  simp only [generate_subtitle, h1, h2, if_true]
  rw [if_pos]
  rw [fileExists_iff]
  exact List.mem_cons_self _ _

theorem generate_noartifact {o : Oracle} (h1 : o.whisperExitOk = true)
    (h2 : o.whisperWrites = false) {w : World} {wav : FsPath}
    (h3 : w.fileExists (tsrtOf wav) = false) (out : FsPath) :
    generate_subtitle o w wav out = (false, w.addCall (.whisper wav)) := by
  have h3' : tsrtOf wav ∉ w.files := fileExists_false_iff.mp h3
  simp [generate_subtitle, h1, h2, World.fileExists, World.addCall, h3']

theorem generate_preserves (o : Oracle) (w : World) (wav out : FsPath) {q : FsPath}
    (hq : q ∈ w.files) (hne : q ≠ tsrtOf wav) :
    q ∈ (generate_subtitle o w wav out).2.files := by
  unfold generate_subtitle
  dsimp only
  split_ifs <;>
    simp_all [World.addFile, World.addCall, World.rmFile, List.mem_filter]

theorem generate_calls (o : Oracle) (w : World) (wav out : FsPath) :
    (generate_subtitle o w wav out).2.calls = w.calls ++ [ExtCall.whisper wav] := by
  unfold generate_subtitle
  dsimp only
  split_ifs <;> rfl

theorem generate_dirs (o : Oracle) (w : World) (wav out : FsPath) :
    (generate_subtitle o w wav out).2.dirs = w.dirs := by
  unfold generate_subtitle
  dsimp only
  split_ifs <;> rfl

/-! ## Component lemmas: pipeline pieces -/

theorem step2_preserves (o : Oracle) (w : World) (k : Bool) (tw out : FsPath) {q : FsPath}
    (hq : q ∈ w.files) (h1 : q ≠ tsrtOf tw) (h2 : k = true ∨ q ≠ tw) :
    q ∈ (tresWorld (pipelineStep2 o w k tw out)).files := by
  have hg := generate_preserves o w tw out hq h1
  unfold pipelineStep2
  dsimp only
  split_ifs with hc hu
  · simpa [tresWorld] using hg
  · rcases h2 with h2 | h2
    · rw [h2] at hc
      simp at hc
    · simp only [tresWorld]
      rw [mem_rmFile]
      exact ⟨hg, h2⟩
  · simpa [tresWorld] using hg

theorem step2_calls (o : Oracle) (w : World) (k : Bool) (tw out : FsPath) :
    (tresWorld (pipelineStep2 o w k tw out)).calls = w.calls ++ [ExtCall.whisper tw] := by
  unfold pipelineStep2
  dsimp only
  split_ifs <;> simp [tresWorld, calls_rmFile, generate_calls]

theorem step2_dirs (o : Oracle) (w : World) (k : Bool) (tw out : FsPath) :
    (tresWorld (pipelineStep2 o w k tw out)).dirs = w.dirs := by
  unfold pipelineStep2
  dsimp only
  split_ifs <;> simp [tresWorld, dirs_rmFile, generate_dirs]

theorem handler_preserves (o : Oracle) (w : World) (k : Bool) (tw : FsPath) {q : FsPath}
    (hq : q ∈ w.files) (h2 : k = true ∨ q ≠ tw) :
    q ∈ (resWorld (pipelineHandler o w k tw)).files := by
  unfold pipelineHandler
  split_ifs with hc hu
  · simpa [resWorld] using hq
  · rcases h2 with h2 | h2
    · rw [h2] at hc
      simp at hc
    · simp only [resWorld]
      rw [mem_rmFile]
      exact ⟨hq, h2⟩
  · simpa [resWorld] using hq

theorem handler_calls (o : Oracle) (w : World) (k : Bool) (tw : FsPath) :
    (resWorld (pipelineHandler o w k tw)).calls = w.calls := by
  unfold pipelineHandler
  split_ifs <;> rfl

theorem handler_dirs (o : Oracle) (w : World) (k : Bool) (tw : FsPath) :
    (resWorld (pipelineHandler o w k tw)).dirs = w.dirs := by
  unfold pipelineHandler
  split_ifs <;> rfl

theorem try_preserves (o : Oracle) (w : World) (p tw out : FsPath) (k : Bool) {q : FsPath}
    (hq : q ∈ w.files) (h1 : q ≠ tsrtOf tw) (h2 : k = true ∨ q ≠ tw) (h3 : q ≠ tsrtOf p) :
    q ∈ (tresWorld (pipelineTry o w p tw out k)).files := by
  unfold pipelineTry
  dsimp only
  split_ifs with hc he
  · exact step2_preserves o _ k tw out (extract_preserves o w p tw hq) h1 h2
  · simpa [tresWorld] using extract_preserves o w p tw hq
  · have hk : k = true := by
      cases k
      · simp at hc
      · rfl
    exact step2_preserves o w k p out hq h3 (Or.inl hk)

theorem try_calls (o : Oracle) (w : World) (p tw out : FsPath) (k : Bool) :
    (tresWorld (pipelineTry o w p tw out k)).calls = w.calls ++ [ExtCall.ffmpeg p tw] ∨
    (tresWorld (pipelineTry o w p tw out k)).calls
      = w.calls ++ [ExtCall.ffmpeg p tw, ExtCall.whisper tw] ∨
    (tresWorld (pipelineTry o w p tw out k)).calls = w.calls ++ [ExtCall.whisper p] := by
  unfold pipelineTry
  dsimp only
  split_ifs with hc he
  · right
    left
    rw [step2_calls, extract_calls]
    simp
  · left
    simpa [tresWorld] using extract_calls o w p tw
  · right
    right
    exact step2_calls o w k p out

/-! ## Name inequalities (all by length arithmetic) -/

theorem name_ne_temp {n : String} (h : strLower (nameSuffix n) ∈ SUPPORTED_EXTENSIONS) :
    n ≠ nameStem n ++ "_temp.wav" := by
  apply ne_of_length_ne
  rw [name_length_of_supported h, String.length_append]
  have h9 : ("_temp.wav" : String).length = 9 := rfl
  omega

theorem name_ne_tempsrt {n : String} (h : strLower (nameSuffix n) ∈ SUPPORTED_EXTENSIONS) :
    n ≠ (nameStem n ++ "_temp.wav") ++ ".srt" := by
  apply ne_of_length_ne
  rw [name_length_of_supported h, String.length_append, String.length_append]
  have h9 : ("_temp.wav" : String).length = 9 := rfl
  have h4 : (".srt" : String).length = 4 := rfl
  omega

theorem str_ne_append_srt (s : String) : s ≠ s ++ ".srt" := by
  apply ne_of_length_ne
  rw [String.length_append]
  have h4 : (".srt" : String).length = 4 := rfl
  omega

theorem append_srt_ne_append_temp (s : String) : s ++ ".srt" ≠ s ++ "_temp.wav" := by
  apply ne_of_length_ne
  rw [String.length_append, String.length_append]
  have h9 : ("_temp.wav" : String).length = 9 := rfl
  have h4 : (".srt" : String).length = 4 := rfl
  omega

theorem try_dirs (o : Oracle) (w : World) (p tw out : FsPath) (k : Bool) :
    (tresWorld (pipelineTry o w p tw out k)).dirs = w.dirs := by
  unfold pipelineTry
  dsimp only
  split_ifs
  · rw [step2_dirs]
    exact extract_dirs o w p tw
  · exact extract_dirs o w p tw
  · exact step2_dirs o w k p out

/-! ## Branch lemmas for the per-file pipeline -/

theorem relativeTo_input (rd : FsPath) (name : String) :
    relativeTo VIDEO_DIR_P (VIDEO_DIR_P ++ rd ++ [name]) = some (rd ++ [name]) := by
  rw [List.append_assoc]
  exact relativeTo_append _ _

theorem temp_wav_input (rd : FsPath) (name : String) :
    temp_wav_path (VIDEO_DIR_P ++ rd ++ [name])
      = VIDEO_DIR_P ++ rd ++ [nameStem name ++ "_temp.wav"] := by
  unfold temp_wav_path
  rw [baseName_concat, parentDir_concat]

theorem process_video_unsupported (o : Oracle) (w : World) (p sd : FsPath)
    (h : strLower (nameSuffix (baseName p)) ∉ SUPPORTED_EXTENSIONS) :
    process_video o w p sd = .ret false w := by
  unfold process_video
  dsimp only
  rw [if_neg h]

theorem process_video_skip (o : Oracle) (w : World) (rd : FsPath) (name : String) (sd : FsPath)
    (h1 : strLower (nameSuffix name) ∈ SUPPORTED_EXTENSIONS)
    (h5 : w.pathExists (sd ++ rd ++ [nameStem name ++ ".srt"]) = true) :
    process_video o w (VIDEO_DIR_P ++ rd ++ [name]) sd = .ret false w := by
  unfold process_video
  dsimp only
  rw [baseName_concat, if_pos h1, relativeTo_input]
  dsimp only
  rw [parentDir_concat, if_pos h5]

theorem process_video_run (o : Oracle) (w w1 : World) (rd : FsPath) (name : String)
    (sd : FsPath) (h1 : strLower (nameSuffix name) ∈ SUPPORTED_EXTENSIONS)
    (h5 : w.pathExists (sd ++ rd ++ [nameStem name ++ ".srt"]) = false)
    (hmk : w.mkdirParents (sd ++ rd) = some w1) :
    process_video o w (VIDEO_DIR_P ++ rd ++ [name]) sd =
      match pipelineTry o w1 (VIDEO_DIR_P ++ rd ++ [name])
          (VIDEO_DIR_P ++ rd ++ [nameStem name ++ "_temp.wav"])
          (sd ++ rd ++ [nameStem name ++ ".srt"])
          (decide (strLower (nameSuffix name) = ".wav")) with
      | .val b w2 => .ret b w2
      | .exn w2 => pipelineHandler o w2 (decide (strLower (nameSuffix name) = ".wav"))
          (VIDEO_DIR_P ++ rd ++ [nameStem name ++ "_temp.wav"]) := by
  have h5' : ¬ (w.pathExists (sd ++ rd ++ [nameStem name ++ ".srt"]) = true) := by
    rw [h5]
    exact Bool.false_ne_true
  unfold process_video
  dsimp only
  rw [baseName_concat, if_pos h1, relativeTo_input]
  dsimp only
  rw [parentDir_concat, if_neg h5', parentDir_concat, hmk]
  dsimp only
  rw [temp_wav_input]

theorem process_video_mkdirfail (o : Oracle) (w : World) (rd : FsPath) (name : String)
    (sd : FsPath) (h1 : strLower (nameSuffix name) ∈ SUPPORTED_EXTENSIONS)
    (h5 : w.pathExists (sd ++ rd ++ [nameStem name ++ ".srt"]) = false)
    (hmk : w.mkdirParents (sd ++ rd) = none) :
    process_video o w (VIDEO_DIR_P ++ rd ++ [name]) sd = .raised w := by
  have h5' : ¬ (w.pathExists (sd ++ rd ++ [nameStem name ++ ".srt"]) = true) := by
    rw [h5]
    exact Bool.false_ne_true
  unfold process_video
  dsimp only
  rw [baseName_concat, if_pos h1, relativeTo_input]
  dsimp only
  rw [parentDir_concat, if_neg h5', parentDir_concat, hmk]

/-! ## The original input file survives every path of `process_video` -/

theorem process_video_preserves (o : Oracle) (w : World) (p sd : FsPath) (hq : p ∈ w.files) :
    p ∈ (resWorld (process_video o w p sd)).files := by
  by_cases hsup : strLower (nameSuffix (baseName p)) ∈ SUPPORTED_EXTENSIONS
  · have hpne : p ≠ [] := by
      intro e
      rw [e] at hsup
      exact absurd hsup (by decide)
    rcases List.eq_nil_or_concat p with he | ⟨L, b, he⟩
    · exact absurd he hpne
    rw [List.concat_eq_append] at he
    subst he
    have hb : baseName (L ++ [b]) = b := baseName_concat _ _
    have hpd : parentDir (L ++ [b]) = L := parentDir_concat _ _
    have hsup' : strLower (nameSuffix b) ∈ SUPPORTED_EXTENSIONS := by
      rw [hb] at hsup
      exact hsup
    have htw : temp_wav_path (L ++ [b]) = L ++ [nameStem b ++ "_temp.wav"] := by
      unfold temp_wav_path
      rw [hb, hpd]
    have hne_tw : (L ++ [b]) ≠ temp_wav_path (L ++ [b]) := by
      rw [htw]
      intro hcon
      exact name_ne_temp hsup' (snoc_inj.mp hcon).2
    have hne_tsrt_tw : (L ++ [b]) ≠ tsrtOf (temp_wav_path (L ++ [b])) := by
      rw [htw]
      unfold tsrtOf
      rw [baseName_concat, parentDir_concat]
      intro hcon
      exact name_ne_tempsrt hsup' (snoc_inj.mp hcon).2
    have hne_tsrt_p : (L ++ [b]) ≠ tsrtOf (L ++ [b]) := by
      unfold tsrtOf
      rw [hb, hpd]
      intro hcon
      exact str_ne_append_srt b (snoc_inj.mp hcon).2
    unfold process_video
    dsimp only
    rw [hb, if_pos hsup']
    cases hrel : relativeTo VIDEO_DIR_P (L ++ [b]) with
    | none => exact hq
    | some rel =>
      dsimp only
      split_ifs with hdest
      · exact hq
      · cases hmk : w.mkdirParents (parentDir (sd ++ parentDir rel ++ [nameStem b ++ ".srt"])) with
        | none => exact hq
        | some w1 =>
          dsimp only
          have hq1 : (L ++ [b]) ∈ w1.files := by
            rw [(mkdirParents_some hmk).1]
            exact hq
          have hmem := try_preserves o w1 (L ++ [b]) (temp_wav_path (L ++ [b]))
            (sd ++ parentDir rel ++ [nameStem b ++ ".srt"])
            (decide (strLower (nameSuffix b) = ".wav"))
            hq1 hne_tsrt_tw (Or.inr hne_tw) hne_tsrt_p
          cases htry : pipelineTry o w1 (L ++ [b]) (temp_wav_path (L ++ [b]))
              (sd ++ parentDir rel ++ [nameStem b ++ ".srt"])
              (decide (strLower (nameSuffix b) = ".wav")) with
          | val b2 w2 =>
            rw [htry] at hmem
            simpa [tresWorld, resWorld] using hmem
          | exn w2 =>
            rw [htry] at hmem
            simp only [tresWorld] at hmem
            exact handler_preserves o w2 (decide (strLower (nameSuffix b) = ".wav"))
              (temp_wav_path (L ++ [b])) hmem (Or.inr hne_tw)
  · rw [process_video_unsupported o w p sd hsup]
    exact hq

/-! ## Scenario lemmas for the pipeline tail -/

theorem try_keepfalse_ok {o : Oracle} (h3 : o.ffmpegOk = true) (w : World) (p tw out : FsPath) :
    pipelineTry o w p tw out false
      = pipelineStep2 o ((w.addCall (.ffmpeg p tw)).addFile tw) false tw out := by
  unfold pipelineTry
  dsimp only
  rw [extract_ok h3 w p tw]
  simp

theorem try_keepfalse_fail {o : Oracle} (h3 : o.ffmpegOk = false) (w : World) (p tw out : FsPath) :
    pipelineTry o w p tw out false
      = .val false (if o.ffmpegCreates then (w.addCall (.ffmpeg p tw)).addFile tw
          else w.addCall (.ffmpeg p tw)) := by
  unfold pipelineTry extract_audio_with_filters
  dsimp only
  rw [h3]
  simp

theorem step2_removes (o : Oracle) (w : World) (tw out : FsPath)
    (h4 : o.unlinkFails1 = false) (htw : tw ∈ w.files) (hne : tw ≠ tsrtOf tw) :
    ∃ b w2, pipelineStep2 o w false tw out = .val b w2 ∧ tw ∉ w2.files := by
  have hg := generate_preserves o w tw out htw hne
  have hpe : (generate_subtitle o w tw out).2.pathExists tw = true :=
    pathExists_iff.mpr (Or.inl hg)
  unfold pipelineStep2
  dsimp only
  simp only [Bool.not_false, Bool.true_and]
  rw [if_pos hpe, h4]
  simp only [Bool.false_eq_true, if_false]
  refine ⟨_, _, rfl, ?_⟩
  rw [mem_rmFile]
  simp

theorem step2_unlink1_raises (o : Oracle) (w : World) (tw out : FsPath)
    (hx : o.whisperExitOk = true) (hw : o.whisperWrites = true) (hu1 : o.unlinkFails1 = true)
    (hne : tw ≠ tsrtOf tw) (htw : tw ∈ w.files) :
    pipelineStep2 o w false tw out =
      .exn ((((w.addCall (.whisper tw)).addFile (tsrtOf tw)).rmFile (tsrtOf tw)).addFile out) := by
  unfold pipelineStep2
  dsimp only
  rw [generate_success hx hw w tw out]
  dsimp only
  have hmem : tw ∈ ((((w.addCall (ExtCall.whisper tw)).addFile (tsrtOf tw)).rmFile
      (tsrtOf tw)).addFile out).files := by
    simp [World.addFile, World.addCall, World.rmFile, List.mem_filter, htw, hne]
  have hpe : ((((w.addCall (ExtCall.whisper tw)).addFile (tsrtOf tw)).rmFile
      (tsrtOf tw)).addFile out).pathExists tw = true := pathExists_iff.mpr (Or.inl hmem)
  simp only [Bool.not_false, Bool.true_and]
  rw [if_pos hpe, if_pos hu1]

theorem step2_success_keepfalse (o : Oracle) (w : World) (tw out : FsPath)
    (hx : o.whisperExitOk = true) (hw : o.whisperWrites = true) (hu1 : o.unlinkFails1 = false)
    (hne : tw ≠ tsrtOf tw) (htw : tw ∈ w.files) :
    pipelineStep2 o w false tw out =
      .val true (((((w.addCall (.whisper tw)).addFile (tsrtOf tw)).rmFile
        (tsrtOf tw)).addFile out).rmFile tw) := by
  unfold pipelineStep2
  dsimp only
  rw [generate_success hx hw w tw out]
  dsimp only
  have hmem : tw ∈ ((((w.addCall (ExtCall.whisper tw)).addFile (tsrtOf tw)).rmFile
      (tsrtOf tw)).addFile out).files := by
    simp [World.addFile, World.addCall, World.rmFile, List.mem_filter, htw, hne]
  have hpe : ((((w.addCall (ExtCall.whisper tw)).addFile (tsrtOf tw)).rmFile
      (tsrtOf tw)).addFile out).pathExists tw = true := pathExists_iff.mpr (Or.inl hmem)
  simp only [Bool.not_false, Bool.true_and]
  rw [if_pos hpe, hu1]
  simp only [Bool.false_eq_true, if_false]

theorem step2_success_keeptrue (o : Oracle) (w : World) (tw out : FsPath)
    (hx : o.whisperExitOk = true) (hw : o.whisperWrites = true) :
    pipelineStep2 o w true tw out =
      .val true ((((w.addCall (.whisper tw)).addFile (tsrtOf tw)).rmFile
        (tsrtOf tw)).addFile out) := by
  unfold pipelineStep2
  dsimp only
  rw [generate_success hx hw w tw out]
  simp

theorem run_calls_eq (o : Oracle) (w1 : World) (p tw out : FsPath) (k : Bool) :
    (resWorld (match pipelineTry o w1 p tw out k with
      | .val b w2 => PRes.ret b w2
      | .exn w2 => pipelineHandler o w2 k tw)).calls
      = (tresWorld (pipelineTry o w1 p tw out k)).calls := by
  cases pipelineTry o w1 p tw out k with
  | val b w2 => rfl
  | exn w2 => exact handler_calls o w2 k tw

theorem try_calls_keepfalse (o : Oracle) (w : World) (p tw out : FsPath) :
    (tresWorld (pipelineTry o w p tw out false)).calls = w.calls ++ [ExtCall.ffmpeg p tw] ∨
    (tresWorld (pipelineTry o w p tw out false)).calls
      = w.calls ++ [ExtCall.ffmpeg p tw, ExtCall.whisper tw] := by
  unfold pipelineTry
  dsimp only
  simp only [Bool.not_false, Bool.true_or, if_true]
  by_cases he : (extract_audio_with_filters o w p tw).1 = true
  · rw [if_pos he]
    right
    rw [step2_calls, extract_calls]
    simp
  · rw [if_neg he]
    left
    simpa [tresWorld] using extract_calls o w p tw

/-! ## Discovery characterization -/

theorem mem_collect {w : World} {walk : List (FsPath × String)} {p : FsPath} :
    p ∈ collect_video_files w walk ↔
      ∃ rf ∈ walk, strLower (nameSuffix rf.2) ∈ SUPPORTED_EXTENSIONS ∧
        w.pathExists (SUBTITLE_DIR_P ++ rf.1 ++ [nameStem rf.2 ++ ".srt"]) = false ∧
        p = VIDEO_DIR_P ++ rf.1 ++ [rf.2] := by
  unfold collect_video_files
  rw [List.mem_filterMap]
  constructor
  · rintro ⟨rf, hrf, hf⟩
    refine ⟨rf, hrf, ?_⟩
    by_cases hs : strLower (nameSuffix rf.2) ∈ SUPPORTED_EXTENSIONS
    · rw [if_pos hs] at hf
      by_cases hd : w.pathExists (SUBTITLE_DIR_P ++ rf.1 ++ [nameStem rf.2 ++ ".srt"]) = true
      · rw [if_pos hd] at hf
        exact absurd hf (by simp)
      · rw [if_neg hd] at hf
        refine ⟨hs, ?_, (Option.some_inj.mp hf).symm⟩
        cases hpe : w.pathExists (SUBTITLE_DIR_P ++ rf.1 ++ [nameStem rf.2 ++ ".srt"])
        · rfl
        · exact absurd hpe hd
    · rw [if_neg hs] at hf
      exact absurd hf (by simp)
  · rintro ⟨rf, hrf, hs, hd, rfl⟩
    refine ⟨rf, hrf, ?_⟩
    rw [if_pos hs, if_neg (by rw [hd]; exact Bool.false_ne_true)]

/-! ## Batch loop lemmas -/

theorem runBatch_step (o : Oracle) (p : FsPath) (rest : List (Oracle × FsPath))
    (w w' : World) (b : Bool) (h : process_video o w p SUBTITLE_DIR_P = .ret b w') :
    runBatch w ((o, p) :: rest) = bumpBatch b (runBatch w' rest) := by
  have hu : runBatch w ((o, p) :: rest) =
      match process_video o w p SUBTITLE_DIR_P with
      | .raised w2 => BatchRes.crashed w2
      | .ret b2 w2 =>
        match runBatch w2 rest with
        | .crashed u => .crashed u
        | .finished s f u =>
          .finished (s + (if b2 then 1 else 0)) (f + (if b2 then 0 else 1)) u := rfl
  rw [hu, h]
  dsimp only
  cases hr : runBatch w' rest <;> rfl

theorem main_dep (env : Env) (os : List Oracle) (w : World) (walk : List (FsPath × String))
    (h : check_dependencies env w = false) : main env os w walk = .depExit := by
  unfold main
  rw [h]
  simp

/-! ## Claim theorems -/

/-- C4: every transcription-engine invocation that exits with status
zero but whose expected subtitle artifact (the input waveform path with
the subtitle extension appended) does not exist returns failure, never
success, and no file is placed at the destination path (the file set is
unchanged). -/
theorem C4_zero_exit_without_artifact_fails (o : Oracle) (w : World) (wav out : FsPath)
    (h1 : o.whisperExitOk = true) (h2 : o.whisperWrites = false)
    (h3 : w.fileExists (tsrtOf wav) = false) :
    (generate_subtitle o w wav out).1 = false ∧
      (generate_subtitle o w wav out).2.files = w.files := by
  rw [generate_noartifact h1 h2 h3 out]
  exact ⟨rfl, rfl⟩

theorem C4_zero_exit_without_artifact_fails_witness :
    (generate_subtitle ⟨true, true, true, false, false, false⟩ ⟨[], [], []⟩
        ["video", "a_temp.wav"] ["subtitle", "a.srt"]).1 = false ∧
    (generate_subtitle ⟨true, true, true, false, false, false⟩ ⟨[], [], []⟩
        ["video", "a_temp.wav"] ["subtitle", "a.srt"]).2.files = ([] : List FsPath) :=
  C4_zero_exit_without_artifact_fails ⟨true, true, true, false, false, false⟩ ⟨[], [], []⟩
    ["video", "a_temp.wav"] ["subtitle", "a.srt"] rfl rfl (by decide)

/-- C10: invoking the per-file pipeline on a file whose destination
subtitle already exists, or whose extension is unsupported, performs no
external invocation and leaves the world unchanged (in particular the
call trace), returning the same `false` outcome as a genuine failure;
the batch loop counts such a `false` in the failed tally. -/
theorem C10_skips_are_failures :
    (∀ (o : Oracle) (w : World) (p sd : FsPath),
        strLower (nameSuffix (baseName p)) ∉ SUPPORTED_EXTENSIONS →
        process_video o w p sd = .ret false w) ∧
    (∀ (o : Oracle) (w : World) (rd : FsPath) (name : String) (sd : FsPath),
        strLower (nameSuffix name) ∈ SUPPORTED_EXTENSIONS →
        w.pathExists (sd ++ rd ++ [nameStem name ++ ".srt"]) = true →
        process_video o w (VIDEO_DIR_P ++ rd ++ [name]) sd = .ret false w) ∧
    (∀ (o : Oracle) (w : World) (p : FsPath),
        process_video o w p SUBTITLE_DIR_P = .ret false w →
        runBatch w [(o, p)] = .finished 0 1 w) := by
  refine ⟨process_video_unsupported, process_video_skip, ?_⟩
  intro o w p h
  rw [runBatch_step o p [] w w false h]
  rfl

theorem C10_skips_are_failures_witness :
    process_video defaultOracle ⟨[], [], []⟩ ["video", "notes.txt"] SUBTITLE_DIR_P
        = .ret false ⟨[], [], []⟩ ∧
    process_video defaultOracle ⟨[["subtitle", "a.srt"]], [], []⟩
        (VIDEO_DIR_P ++ [] ++ ["a.mp4"]) SUBTITLE_DIR_P
        = .ret false ⟨[["subtitle", "a.srt"]], [], []⟩ ∧
    runBatch ⟨[["subtitle", "a.srt"]], [], []⟩
        [(defaultOracle, VIDEO_DIR_P ++ [] ++ ["a.mp4"])]
        = .finished 0 1 ⟨[["subtitle", "a.srt"]], [], []⟩ :=
  ⟨C10_skips_are_failures.1 _ _ _ _ (by decide),
   C10_skips_are_failures.2.1 _ _ [] "a.mp4" _ (by decide) (by decide),
   C10_skips_are_failures.2.2 _ _ _
     (C10_skips_are_failures.2.1 _ _ [] "a.mp4" _ (by decide) (by decide))⟩

/-- C9 counterexample: discovery is not an `iff` with extension support
alone.  `talk.MP4` has a supported extension (case-insensitively), is a
file under the input root (it is in the walk), yet it is not discovered,
because its mirrored destination `subtitle/talk.srt` already exists. -/
theorem C9_counterexample :
    strLower (nameSuffix "talk.MP4") ∈ SUPPORTED_EXTENSIONS ∧
    (["video", "talk.MP4"] : FsPath)
      ∉ collect_video_files ⟨[["subtitle", "talk.srt"]], [], []⟩ [([], "talk.MP4")] := by
  decide

/-- C9 amended: a regular file under the input root is discovered iff
its extension, compared case-insensitively, is supported AND its
mirrored destination subtitle does not yet exist.  In particular
`notes.txt` is never discovered, and `talk.MP4` is discovered whenever
its destination is absent. -/
theorem C9_extension_filter (w : World) (walk : List (FsPath × String)) (rd : FsPath)
    (name : String) :
    (VIDEO_DIR_P ++ rd ++ [name]) ∈ collect_video_files w walk ↔
      ((rd, name) ∈ walk ∧ strLower (nameSuffix name) ∈ SUPPORTED_EXTENSIONS ∧
        w.pathExists (SUBTITLE_DIR_P ++ rd ++ [nameStem name ++ ".srt"]) = false) := by
  rw [mem_collect]
  constructor
  · rintro ⟨⟨r1, r2⟩, hrf, hs, hd, heq⟩
    obtain ⟨h1, h2⟩ := snoc_inj.mp heq
    obtain rfl : rd = r1 := List.append_cancel_left h1
    obtain rfl : name = r2 := h2
    exact ⟨hrf, hs, hd⟩
  · rintro ⟨hrf, hs, hd⟩
    exact ⟨(rd, name), hrf, hs, hd, rfl⟩

theorem C9_extension_filter_witness :
    ((["video", "talk.MP4"] : FsPath) ∈ collect_video_files ⟨[], [], []⟩ [([], "talk.MP4")]) ∧
    ((["video", "notes.txt"] : FsPath) ∉ collect_video_files ⟨[], [], []⟩ [([], "notes.txt")]) :=
  ⟨(C9_extension_filter ⟨[], [], []⟩ [([], "talk.MP4")] [] "talk.MP4").mpr (by decide),
   fun h => by
    have h2 := (C9_extension_filter ⟨[], [], []⟩ [([], "notes.txt")] [] "notes.txt").mp h
    exact absurd h2.2.1 (by decide)⟩

/-- C5: every discovered task's destination subtitle is absent at
discovery time, and a file whose mirrored destination exists is never
discovered — so re-running discovery on an unchanged output tree yields
exactly the tasks whose outputs are still absent, and a full re-run
never re-processes a file whose destination subtitle exists. -/
theorem C5_discovery_skips_existing_outputs :
    (∀ (w : World) (walk : List (FsPath × String)) (p : FsPath),
        p ∈ collect_video_files w walk →
        ∃ rd name, p = VIDEO_DIR_P ++ rd ++ [name] ∧
          w.pathExists (SUBTITLE_DIR_P ++ rd ++ [nameStem name ++ ".srt"]) = false) ∧
    (∀ (w : World) (walk : List (FsPath × String)) (rd : FsPath) (name : String),
        w.pathExists (SUBTITLE_DIR_P ++ rd ++ [nameStem name ++ ".srt"]) = true →
        (VIDEO_DIR_P ++ rd ++ [name]) ∉ collect_video_files w walk) := by
  constructor
  · intro w walk p hp
    obtain ⟨rf, _, _, hd, rfl⟩ := mem_collect.mp hp
    exact ⟨rf.1, rf.2, rfl, hd⟩
  · intro w walk rd name hd hp
    obtain ⟨⟨r1, r2⟩, _, _, hd', heq⟩ := mem_collect.mp hp
    obtain ⟨h1, h2⟩ := snoc_inj.mp heq
    obtain rfl : rd = r1 := List.append_cancel_left h1
    obtain rfl : name = r2 := h2
    rw [hd'] at hd
    exact Bool.false_ne_true hd

theorem C5_discovery_skips_existing_outputs_witness :
    (∃ rd name, (["video", "a.mp4"] : FsPath) = VIDEO_DIR_P ++ rd ++ [name] ∧
      World.pathExists ⟨[], [], []⟩ (SUBTITLE_DIR_P ++ rd ++ [nameStem name ++ ".srt"]) = false) ∧
    ((VIDEO_DIR_P ++ [] ++ ["a.mp4"] : FsPath)
      ∉ collect_video_files ⟨[["subtitle", "a.srt"]], [], []⟩ [([], "a.mp4")]) :=
  ⟨C5_discovery_skips_existing_outputs.1 ⟨[], [], []⟩ [([], "a.mp4")] ["video", "a.mp4"]
     (by decide),
   C5_discovery_skips_existing_outputs.2 ⟨[["subtitle", "a.srt"]], [], []⟩ [([], "a.mp4")]
     [] "a.mp4" (by decide)⟩

/-- C7 counterexample: two distinct discovered tasks, `video/x.mp4` and
`video/x.mp3` (same directory, same stem, different extensions), derive
the same temporary waveform path `video/x_temp.wav`. -/
theorem C7_counterexample :
    (["video", "x.mp4"] : FsPath)
        ∈ collect_video_files ⟨[], [], []⟩ [([], "x.mp4"), ([], "x.mp3")] ∧
    (["video", "x.mp3"] : FsPath)
        ∈ collect_video_files ⟨[], [], []⟩ [([], "x.mp4"), ([], "x.mp3")] ∧
    (["video", "x.mp4"] : FsPath) ≠ ["video", "x.mp3"] ∧
    temp_wav_path ["video", "x.mp4"] = temp_wav_path ["video", "x.mp3"] := by
  decide

/-- C7 amended: derived temporary waveform paths are distinct whenever
the two tasks differ in parent directory or in stem; tasks sharing both
(differing only in extension) collide. -/
theorem C7_temp_paths_distinct (p q : FsPath)
    (h : parentDir p ≠ parentDir q ∨ nameStem (baseName p) ≠ nameStem (baseName q)) :
    temp_wav_path p ≠ temp_wav_path q := by
  unfold temp_wav_path
  intro hcon
  obtain ⟨h1, h2⟩ := snoc_inj.mp hcon
  rcases h with h | h
  · exact h h1
  · apply h
    have hd := congrArg String.data h2
    rw [String.data_append, String.data_append] at hd
    exact String.ext (List.append_cancel_right hd)

theorem C7_temp_paths_distinct_witness :
    temp_wav_path ["video", "x.mp4"] ≠ temp_wav_path ["video", "y.mp4"] :=
  C7_temp_paths_distinct ["video", "x.mp4"] ["video", "y.mp4"] (by decide)

/-- C2 counterexample: the code derives the temporary waveform path
next to the source file (`video/week1/a_temp.wav`), not under the
output tree next to the destination as the claim states
(`subtitle/week1/a_temp.wav`). -/
theorem C2_counterexample :
    temp_wav_path ["video", "week1", "a.mp4"] = ["video", "week1", "a_temp.wav"] ∧
    specTempWavPath SUBTITLE_DIR_P ["week1", "a.mp4"] = ["subtitle", "week1", "a_temp.wav"] ∧
    temp_wav_path ["video", "week1", "a.mp4"]
      ≠ specTempWavPath SUBTITLE_DIR_P ["week1", "a.mp4"] := by
  decide

/-- C2 amended: the derived temporary waveform path equals the input
file's parent directory joined with the stem, `_temp` and the waveform
extension — next to the source, not next to the destination — and this
is the path the pipeline actually hands to the audio extractor, as
recorded in the call trace. -/
theorem C2_temp_path_next_to_source (o : Oracle) (w w1 : World) (rd : FsPath) (name : String)
    (sd : FsPath)
    (h1 : strLower (nameSuffix name) ∈ SUPPORTED_EXTENSIONS)
    (h2 : strLower (nameSuffix name) ≠ ".wav")
    (h5 : w.pathExists (sd ++ rd ++ [nameStem name ++ ".srt"]) = false)
    (hmk : w.mkdirParents (sd ++ rd) = some w1) :
    temp_wav_path (VIDEO_DIR_P ++ rd ++ [name])
        = VIDEO_DIR_P ++ rd ++ [nameStem name ++ "_temp.wav"] ∧
    ∃ t, (resWorld (process_video o w (VIDEO_DIR_P ++ rd ++ [name]) sd)).calls
        = w.calls ++ [ExtCall.ffmpeg (VIDEO_DIR_P ++ rd ++ [name])
            (VIDEO_DIR_P ++ rd ++ [nameStem name ++ "_temp.wav"])] ++ t := by
  refine ⟨temp_wav_input rd name, ?_⟩
  have hk : decide (strLower (nameSuffix name) = ".wav") = false := by
    rw [decide_eq_false_iff_not]
    exact h2
  rw [process_video_run o w w1 rd name sd h1 h5 hmk, hk, run_calls_eq]
  have hcalls := (mkdirParents_some hmk).2.1
  rcases try_calls_keepfalse o w1 (VIDEO_DIR_P ++ rd ++ [name])
      (VIDEO_DIR_P ++ rd ++ [nameStem name ++ "_temp.wav"])
      (sd ++ rd ++ [nameStem name ++ ".srt"]) with h | h
  · refine ⟨[], ?_⟩
    rw [h, hcalls]
    simp
  · refine ⟨[ExtCall.whisper (VIDEO_DIR_P ++ rd ++ [nameStem name ++ "_temp.wav"])], ?_⟩
    rw [h, hcalls]
    simp

theorem C2_temp_path_next_to_source_witness :
    temp_wav_path (VIDEO_DIR_P ++ ["week1"] ++ ["a.mp4"])
        = VIDEO_DIR_P ++ ["week1"] ++ [nameStem "a.mp4" ++ "_temp.wav"] ∧
    ∃ t, (resWorld (process_video defaultOracle ⟨[["video", "week1", "a.mp4"]], [["video"]], []⟩
          (VIDEO_DIR_P ++ ["week1"] ++ ["a.mp4"]) SUBTITLE_DIR_P)).calls
        = ([] : List ExtCall) ++ [ExtCall.ffmpeg (VIDEO_DIR_P ++ ["week1"] ++ ["a.mp4"])
            (VIDEO_DIR_P ++ ["week1"] ++ [nameStem "a.mp4" ++ "_temp.wav"])] ++ t :=
  C2_temp_path_next_to_source defaultOracle ⟨[["video", "week1", "a.mp4"]], [["video"]], []⟩
    ⟨[["video", "week1", "a.mp4"]], [["video"], ["subtitle"], ["subtitle", "week1"]], []⟩
    ["week1"] "a.mp4" SUBTITLE_DIR_P (by decide) (by decide) (by decide) (by decide)

/-- C6 counterexample: with all dependencies resolvable, a per-file
failure still crashes the whole run with a non-zero exit status: a stray
regular file at `subtitle/week1` makes the destination-directory
creation raise, and that `mkdir` sits outside the per-file `try` block,
so the exception escapes the task boundary and aborts the batch. -/
theorem C6_counterexample :
    check_dependencies ⟨true, true⟩
        ⟨[["video", "week1", "a.mp4"], ["subtitle", "week1"], [ MODEL_FILE ]],
          [["video"], ["video", "week1"], ["subtitle"]], []⟩ = true ∧
    exitNonzero (main ⟨true, true⟩ []
        ⟨[["video", "week1", "a.mp4"], ["subtitle", "week1"], [ MODEL_FILE ]],
          [["video"], ["video", "week1"], ["subtitle"]], []⟩
        [(["week1"], "a.mp4")]) = true := by
  decide

/-- C6 amended: when a required dependency is unresolvable the program
exits non-zero before any task runs; a per-file failure that is caught
and converted to a `False` outcome never aborts the batch — the loop
continues on the remaining tasks and only the failure counter changes —
but a per-file exception that escapes `process_video` (directory
creation, or a twice-failing cleanup) crashes the run with a non-zero
status. -/
theorem C6_exit_status_policy :
    (∀ (env : Env) (os : List Oracle) (w : World) (walk : List (FsPath × String)),
        check_dependencies env w = false → main env os w walk = .depExit) ∧
    (∀ (o : Oracle) (p : FsPath) (rest : List (Oracle × FsPath)) (w w' : World) (b : Bool),
        process_video o w p SUBTITLE_DIR_P = .ret b w' →
        runBatch w ((o, p) :: rest) = bumpBatch b (runBatch w' rest)) :=
  ⟨main_dep, runBatch_step⟩

theorem C6_exit_status_policy_witness :
    main ⟨false, true⟩ [] ⟨[], [], []⟩ [] = .depExit ∧
    runBatch ⟨[["subtitle", "a.srt"]], [], []⟩
        [(defaultOracle, VIDEO_DIR_P ++ [] ++ ["a.mp4"])]
      = bumpBatch false (runBatch ⟨[["subtitle", "a.srt"]], [], []⟩ []) :=
  ⟨C6_exit_status_policy.1 ⟨false, true⟩ [] ⟨[], [], []⟩ [] (by decide),
   C6_exit_status_policy.2 defaultOracle (VIDEO_DIR_P ++ [] ++ ["a.mp4"]) []
     ⟨[["subtitle", "a.srt"]], [], []⟩ ⟨[["subtitle", "a.srt"]], [], []⟩ false (by decide)⟩

/-- C1 counterexample: on a failed audio-extraction exit the task's own
temporary waveform file can remain on disk.  Extraction fails for
`video/a.mp4` after ffmpeg created a partial `video/a_temp.wav`; the
pipeline returns the failure outcome without any cleanup (the `return`
sits inside `try` with no `finally`), and the temp file still exists. -/
theorem C1_counterexample :
    resFlag (process_video ⟨false, true, true, true, false, false⟩
        ⟨[["video", "a.mp4"]], [["video"]], []⟩ ["video", "a.mp4"] SUBTITLE_DIR_P)
      = some false ∧
    (["video", "a_temp.wav"] : FsPath)
      ∈ (resWorld (process_video ⟨false, true, true, true, false, false⟩
          ⟨[["video", "a.mp4"]], [["video"]], []⟩ ["video", "a.mp4"] SUBTITLE_DIR_P)).files := by
  decide

/-- C1 amended: the original input file is never deleted on any exit
path (in particular a `.wav` input reused in place); and on every exit
path in which extraction either is skipped or succeeds and the in-`try`
cleanup deletion does not itself fail, the task's temporary waveform
file no longer exists afterwards.  (A failed extraction may leave a
partial temp file behind, as the counterexample shows.) -/
theorem C1_cleanup_discipline :
    (∀ (o : Oracle) (w : World) (p sd : FsPath),
        p ∈ w.files → p ∈ (resWorld (process_video o w p sd)).files) ∧
    (∀ (o : Oracle) (w : World) (rd : FsPath) (name : String) (sd : FsPath),
        strLower (nameSuffix name) ∈ SUPPORTED_EXTENSIONS →
        strLower (nameSuffix name) ≠ ".wav" →
        o.ffmpegOk = true → o.unlinkFails1 = false →
        w.pathExists (sd ++ rd ++ [nameStem name ++ ".srt"]) = false →
        (VIDEO_DIR_P ++ rd ++ [nameStem name ++ "_temp.wav"]) ∉ w.files →
        (VIDEO_DIR_P ++ rd ++ [nameStem name ++ "_temp.wav"])
          ∉ (resWorld (process_video o w (VIDEO_DIR_P ++ rd ++ [name]) sd)).files) := by
  refine ⟨process_video_preserves, ?_⟩
  intro o w rd name sd h1 h2 h3 h4 h5 h6
  have hk : decide (strLower (nameSuffix name) = ".wav") = false := by
    rw [decide_eq_false_iff_not]
    exact h2
  cases hmk : w.mkdirParents (sd ++ rd) with
  | none =>
    rw [process_video_mkdirfail o w rd name sd h1 h5 hmk]
    exact h6
  | some w1 =>
    rw [process_video_run o w w1 rd name sd h1 h5 hmk, hk,
      try_keepfalse_ok h3 w1 (VIDEO_DIR_P ++ rd ++ [name])
        (VIDEO_DIR_P ++ rd ++ [nameStem name ++ "_temp.wav"])
        (sd ++ rd ++ [nameStem name ++ ".srt"])]
    have hne : (VIDEO_DIR_P ++ rd ++ [nameStem name ++ "_temp.wav"])
        ≠ tsrtOf (VIDEO_DIR_P ++ rd ++ [nameStem name ++ "_temp.wav"]) := by
      unfold tsrtOf
      rw [baseName_concat, parentDir_concat]
      intro hcon
      exact str_ne_append_srt _ (snoc_inj.mp hcon).2
    have htw : (VIDEO_DIR_P ++ rd ++ [nameStem name ++ "_temp.wav"])
        ∈ ((w1.addCall (.ffmpeg (VIDEO_DIR_P ++ rd ++ [name])
            (VIDEO_DIR_P ++ rd ++ [nameStem name ++ "_temp.wav"]))).addFile
            (VIDEO_DIR_P ++ rd ++ [nameStem name ++ "_temp.wav"])).files := by
      simp [World.addFile, World.addCall]
    obtain ⟨b, w2, hs, hnot⟩ := step2_removes o
      ((w1.addCall (.ffmpeg (VIDEO_DIR_P ++ rd ++ [name])
          (VIDEO_DIR_P ++ rd ++ [nameStem name ++ "_temp.wav"]))).addFile
          (VIDEO_DIR_P ++ rd ++ [nameStem name ++ "_temp.wav"]))
      (VIDEO_DIR_P ++ rd ++ [nameStem name ++ "_temp.wav"])
      (sd ++ rd ++ [nameStem name ++ ".srt"]) h4 htw hne
    rw [hs]
    exact hnot

theorem C1_cleanup_discipline_witness :
    (["video", "a.wav"] : FsPath)
      ∈ (resWorld (process_video defaultOracle ⟨[["video", "a.wav"]], [["video"]], []⟩
          ["video", "a.wav"] SUBTITLE_DIR_P)).files ∧
    (VIDEO_DIR_P ++ [] ++ [nameStem "a.mp4" ++ "_temp.wav"])
      ∉ (resWorld (process_video defaultOracle ⟨[["video", "a.mp4"]], [["video"]], []⟩
          (VIDEO_DIR_P ++ [] ++ ["a.mp4"]) SUBTITLE_DIR_P)).files :=
  ⟨C1_cleanup_discipline.1 defaultOracle ⟨[["video", "a.wav"]], [["video"]], []⟩
     ["video", "a.wav"] SUBTITLE_DIR_P (by decide),
   C1_cleanup_discipline.2 defaultOracle ⟨[["video", "a.mp4"]], [["video"]], []⟩
     [] "a.mp4" SUBTITLE_DIR_P (by decide) (by decide) rfl rfl (by decide) (by decide)⟩

/-! ## Tail-scenario lemmas shared by the remaining claims -/

theorem handler_unlink_retry (o : Oracle) (w : World) (tw : FsPath) (htw : tw ∈ w.files) :
    (o.unlinkFails2 = false → pipelineHandler o w false tw = .ret false (w.rmFile tw)) ∧
    (o.unlinkFails2 = true → pipelineHandler o w false tw = .raised w) := by
  have hpe : w.pathExists tw = true := pathExists_iff.mpr (Or.inl htw)
  unfold pipelineHandler
  simp only [Bool.not_false, Bool.true_and]
  rw [if_pos hpe]
  constructor
  · intro h
    rw [h]
    simp
  · intro h
    rw [h]
    simp

theorem tail_unlink_cases (o : Oracle) (w : World) (tw out : FsPath)
    (hx : o.whisperExitOk = true) (hw : o.whisperWrites = true) (hu1 : o.unlinkFails1 = true)
    (hne : tw ≠ tsrtOf tw) (hdt : out ≠ tw) (htw : tw ∈ w.files) :
    (o.unlinkFails2 = false →
      resFlag (match pipelineStep2 o w false tw out with
        | .val b w2 => PRes.ret b w2
        | .exn w2 => pipelineHandler o w2 false tw) = some false ∧
      out ∈ (resWorld (match pipelineStep2 o w false tw out with
        | .val b w2 => PRes.ret b w2
        | .exn w2 => pipelineHandler o w2 false tw)).files) ∧
    (o.unlinkFails2 = true →
      resFlag (match pipelineStep2 o w false tw out with
        | .val b w2 => PRes.ret b w2
        | .exn w2 => pipelineHandler o w2 false tw) = none) := by
  rw [step2_unlink1_raises o w tw out hx hw hu1 hne htw]
  have hW5 : tw ∈ ((((w.addCall (ExtCall.whisper tw)).addFile (tsrtOf tw)).rmFile
      (tsrtOf tw)).addFile out).files := by
    simp [World.addFile, World.addCall, World.rmFile, List.mem_filter, htw, hne]
  constructor
  · intro hu2
    rw [show (match TRes.exn ((((w.addCall (ExtCall.whisper tw)).addFile (tsrtOf tw)).rmFile
        (tsrtOf tw)).addFile out) with
        | .val b w2 => PRes.ret b w2
        | .exn w2 => pipelineHandler o w2 false tw)
        = pipelineHandler o ((((w.addCall (ExtCall.whisper tw)).addFile (tsrtOf tw)).rmFile
          (tsrtOf tw)).addFile out) false tw from rfl]
    rw [(handler_unlink_retry o _ tw hW5).1 hu2]
    refine ⟨rfl, ?_⟩
    simp only [resWorld]
    rw [mem_rmFile]
    refine ⟨?_, hdt⟩
    simp [World.addFile]
  · intro hu2
    rw [show (match TRes.exn ((((w.addCall (ExtCall.whisper tw)).addFile (tsrtOf tw)).rmFile
        (tsrtOf tw)).addFile out) with
        | .val b w2 => PRes.ret b w2
        | .exn w2 => pipelineHandler o w2 false tw)
        = pipelineHandler o ((((w.addCall (ExtCall.whisper tw)).addFile (tsrtOf tw)).rmFile
          (tsrtOf tw)).addFile out) false tw from rfl]
    rw [(handler_unlink_retry o _ tw hW5).2 hu2]
    rfl

theorem tail_success_keepfalse (o : Oracle) (w : World) (tw out : FsPath)
    (hx : o.whisperExitOk = true) (hw : o.whisperWrites = true) (hu1 : o.unlinkFails1 = false)
    (hne : tw ≠ tsrtOf tw) (hdt : out ≠ tw) (htw : tw ∈ w.files) :
    resFlag (match pipelineStep2 o w false tw out with
      | .val b w2 => PRes.ret b w2
      | .exn w2 => pipelineHandler o w2 false tw) = some true ∧
    out ∈ (resWorld (match pipelineStep2 o w false tw out with
      | .val b w2 => PRes.ret b w2
      | .exn w2 => pipelineHandler o w2 false tw)).files ∧
    (resWorld (match pipelineStep2 o w false tw out with
      | .val b w2 => PRes.ret b w2
      | .exn w2 => pipelineHandler o w2 false tw)).dirs = w.dirs := by
  rw [step2_success_keepfalse o w tw out hx hw hu1 hne htw]
  refine ⟨rfl, ?_, rfl⟩
  rw [show (resWorld (match TRes.val true (((((w.addCall (.whisper tw)).addFile
      (tsrtOf tw)).rmFile (tsrtOf tw)).addFile out).rmFile tw) with
      | .val b w2 => PRes.ret b w2
      | .exn w2 => pipelineHandler o w2 false tw))
      = (((((w.addCall (.whisper tw)).addFile (tsrtOf tw)).rmFile
          (tsrtOf tw)).addFile out).rmFile tw) from rfl]
  rw [mem_rmFile]
  refine ⟨?_, hdt⟩
  simp [World.addFile]

theorem tail_success_keeptrue (o : Oracle) (w : World) (wavp out hpath : FsPath)
    (hx : o.whisperExitOk = true) (hw : o.whisperWrites = true) :
    resFlag (match pipelineStep2 o w true wavp out with
      | .val b w2 => PRes.ret b w2
      | .exn w2 => pipelineHandler o w2 true hpath) = some true ∧
    out ∈ (resWorld (match pipelineStep2 o w true wavp out with
      | .val b w2 => PRes.ret b w2
      | .exn w2 => pipelineHandler o w2 true hpath)).files ∧
    (resWorld (match pipelineStep2 o w true wavp out with
      | .val b w2 => PRes.ret b w2
      | .exn w2 => pipelineHandler o w2 true hpath)).dirs = w.dirs := by
  rw [step2_success_keeptrue o w wavp out hx hw]
  refine ⟨rfl, ?_, rfl⟩
  simp [resWorld, World.addFile]

theorem try_keeptrue_present {o : Oracle} (w : World) {p : FsPath}
    (hpp : w.pathExists p = true) (tw out : FsPath) :
    pipelineTry o w p tw out true = pipelineStep2 o w true p out := by
  unfold pipelineTry
  dsimp only
  rw [hpp]
  simp

theorem try_keeptrue_absent {o : Oracle} (h3 : o.ffmpegOk = true) (w : World) {p : FsPath}
    (hpp : w.pathExists p = false) (tw out : FsPath) :
    pipelineTry o w p tw out true
      = pipelineStep2 o ((w.addCall (.ffmpeg p tw)).addFile tw) true tw out := by
  unfold pipelineTry
  dsimp only
  rw [hpp, extract_ok h3]
  simp

/-- C3 counterexample: a failure while deleting the temporary waveform
file does change the task's outcome.  Transcription succeeded (the
subtitle was produced and moved to `subtitle/a.srt`), only the temp-file
`unlink` raised; the generic `except` handler converts the task to a
failure outcome instead of reporting success. -/
theorem C3_counterexample :
    resFlag (process_video ⟨true, true, true, true, true, false⟩
        ⟨[["video", "a.mp4"]], [["video"]], []⟩ ["video", "a.mp4"] SUBTITLE_DIR_P)
      = some false ∧
    (["subtitle", "a.srt"] : FsPath)
      ∈ (resWorld (process_video ⟨true, true, true, true, true, false⟩
          ⟨[["video", "a.mp4"]], [["video"]], []⟩ ["video", "a.mp4"] SUBTITLE_DIR_P)).files := by
  decide

/-- C3 amended: a failure of the in-`try` cleanup deletion is caught by
the task-level `except` handler, which retries the deletion: if the
retry succeeds the task is reported as a failure (even though the
subtitle was successfully placed at its destination) and the batch
continues; if the retry also fails the exception propagates out of the
task and aborts the batch. -/
theorem C3_cleanup_failure_escalation (o : Oracle) (w w1 : World) (rd : FsPath)
    (name : String) (sd : FsPath)
    (h1 : strLower (nameSuffix name) ∈ SUPPORTED_EXTENSIONS)
    (h2 : strLower (nameSuffix name) ≠ ".wav")
    (h3 : o.ffmpegOk = true) (hx : o.whisperExitOk = true) (hw : o.whisperWrites = true)
    (hu1 : o.unlinkFails1 = true)
    (h5 : w.pathExists (sd ++ rd ++ [nameStem name ++ ".srt"]) = false)
    (hmk : w.mkdirParents (sd ++ rd) = some w1) :
    (o.unlinkFails2 = false →
      resFlag (process_video o w (VIDEO_DIR_P ++ rd ++ [name]) sd) = some false ∧
      (sd ++ rd ++ [nameStem name ++ ".srt"])
        ∈ (resWorld (process_video o w (VIDEO_DIR_P ++ rd ++ [name]) sd)).files) ∧
    (o.unlinkFails2 = true →
      resFlag (process_video o w (VIDEO_DIR_P ++ rd ++ [name]) sd) = none) := by
  have hk : decide (strLower (nameSuffix name) = ".wav") = false := by
    rw [decide_eq_false_iff_not]
    exact h2
  rw [process_video_run o w w1 rd name sd h1 h5 hmk, hk,
    try_keepfalse_ok h3 w1 (VIDEO_DIR_P ++ rd ++ [name])
      (VIDEO_DIR_P ++ rd ++ [nameStem name ++ "_temp.wav"])
      (sd ++ rd ++ [nameStem name ++ ".srt"])]
  have hne : (VIDEO_DIR_P ++ rd ++ [nameStem name ++ "_temp.wav"])
      ≠ tsrtOf (VIDEO_DIR_P ++ rd ++ [nameStem name ++ "_temp.wav"]) := by
    unfold tsrtOf
    rw [baseName_concat, parentDir_concat]
    intro hcon
    exact str_ne_append_srt _ (snoc_inj.mp hcon).2
  have hdt : (sd ++ rd ++ [nameStem name ++ ".srt"])
      ≠ VIDEO_DIR_P ++ rd ++ [nameStem name ++ "_temp.wav"] := by
    intro hcon
    exact append_srt_ne_append_temp _ (snoc_inj.mp hcon).2
  have htw : (VIDEO_DIR_P ++ rd ++ [nameStem name ++ "_temp.wav"])
      ∈ ((w1.addCall (.ffmpeg (VIDEO_DIR_P ++ rd ++ [name])
          (VIDEO_DIR_P ++ rd ++ [nameStem name ++ "_temp.wav"]))).addFile
          (VIDEO_DIR_P ++ rd ++ [nameStem name ++ "_temp.wav"])).files := by
    simp [World.addFile, World.addCall]
  exact tail_unlink_cases o
    ((w1.addCall (.ffmpeg (VIDEO_DIR_P ++ rd ++ [name])
        (VIDEO_DIR_P ++ rd ++ [nameStem name ++ "_temp.wav"]))).addFile
        (VIDEO_DIR_P ++ rd ++ [nameStem name ++ "_temp.wav"]))
    (VIDEO_DIR_P ++ rd ++ [nameStem name ++ "_temp.wav"])
    (sd ++ rd ++ [nameStem name ++ ".srt"]) hx hw hu1 hne hdt htw

theorem C3_cleanup_failure_escalation_witness :
    (resFlag (process_video ⟨true, true, true, true, true, false⟩
        ⟨[["video", "a.mp4"]], [["video"]], []⟩
        (VIDEO_DIR_P ++ [] ++ ["a.mp4"]) SUBTITLE_DIR_P) = some false ∧
      (SUBTITLE_DIR_P ++ [] ++ [nameStem "a.mp4" ++ ".srt"])
        ∈ (resWorld (process_video ⟨true, true, true, true, true, false⟩
            ⟨[["video", "a.mp4"]], [["video"]], []⟩
            (VIDEO_DIR_P ++ [] ++ ["a.mp4"]) SUBTITLE_DIR_P)).files) ∧
    resFlag (process_video ⟨true, true, true, true, true, true⟩
        ⟨[["video", "a.mp4"]], [["video"]], []⟩
        (VIDEO_DIR_P ++ [] ++ ["a.mp4"]) SUBTITLE_DIR_P) = none :=
  ⟨(C3_cleanup_failure_escalation ⟨true, true, true, true, true, false⟩
      ⟨[["video", "a.mp4"]], [["video"]], []⟩
      ⟨[["video", "a.mp4"]], [["video"], ["subtitle"]], []⟩ [] "a.mp4" SUBTITLE_DIR_P
      (by decide) (by decide) rfl rfl rfl rfl (by decide) (by decide)).1 rfl,
   (C3_cleanup_failure_escalation ⟨true, true, true, true, true, true⟩
      ⟨[["video", "a.mp4"]], [["video"]], []⟩
      ⟨[["video", "a.mp4"]], [["video"], ["subtitle"]], []⟩ [] "a.mp4" SUBTITLE_DIR_P
      (by decide) (by decide) rfl rfl rfl rfl (by decide) (by decide)).2 rfl⟩

/-- C8: a qualifying input `<input_root>/<rel>/name.ext` maps to the
mirrored destination `<output_root>/<rel>/<stem>.srt`; when the task
runs (destination absent, directories creatable) and the external steps
succeed, the subtitle is placed exactly there, and all missing parent
directories of the destination were created under the output root. -/
theorem C8_mirrored_destination_and_parents (o : Oracle) (w w1 : World) (rd : FsPath)
    (name : String) (sd : FsPath)
    (h1 : strLower (nameSuffix name) ∈ SUPPORTED_EXTENSIONS)
    (h3 : o.ffmpegOk = true) (hx : o.whisperExitOk = true) (hw : o.whisperWrites = true)
    (hu1 : o.unlinkFails1 = false)
    (h5 : w.pathExists (sd ++ rd ++ [nameStem name ++ ".srt"]) = false)
    (hmk : w.mkdirParents (sd ++ rd) = some w1) :
    resFlag (process_video o w (VIDEO_DIR_P ++ rd ++ [name]) sd) = some true ∧
    (sd ++ rd ++ [nameStem name ++ ".srt"])
      ∈ (resWorld (process_video o w (VIDEO_DIR_P ++ rd ++ [name]) sd)).files ∧
    ∀ q ∈ ancestors (sd ++ rd),
      q ∈ (resWorld (process_video o w (VIDEO_DIR_P ++ rd ++ [name]) sd)).dirs := by
  have hdirs1 : w1.dirs = w.dirs ++ ancestors (sd ++ rd) := (mkdirParents_some hmk).2.2
  have hne : (VIDEO_DIR_P ++ rd ++ [nameStem name ++ "_temp.wav"])
      ≠ tsrtOf (VIDEO_DIR_P ++ rd ++ [nameStem name ++ "_temp.wav"]) := by
    unfold tsrtOf
    rw [baseName_concat, parentDir_concat]
    intro hcon
    exact str_ne_append_srt _ (snoc_inj.mp hcon).2
  have hdt : (sd ++ rd ++ [nameStem name ++ ".srt"])
      ≠ VIDEO_DIR_P ++ rd ++ [nameStem name ++ "_temp.wav"] := by
    intro hcon
    exact append_srt_ne_append_temp _ (snoc_inj.mp hcon).2
  rw [process_video_run o w w1 rd name sd h1 h5 hmk]
  cases hk2 : decide (strLower (nameSuffix name) = ".wav") with
  | false =>
    rw [try_keepfalse_ok h3 w1 (VIDEO_DIR_P ++ rd ++ [name])
        (VIDEO_DIR_P ++ rd ++ [nameStem name ++ "_temp.wav"])
        (sd ++ rd ++ [nameStem name ++ ".srt"])]
    have htw : (VIDEO_DIR_P ++ rd ++ [nameStem name ++ "_temp.wav"])
        ∈ ((w1.addCall (.ffmpeg (VIDEO_DIR_P ++ rd ++ [name])
            (VIDEO_DIR_P ++ rd ++ [nameStem name ++ "_temp.wav"]))).addFile
            (VIDEO_DIR_P ++ rd ++ [nameStem name ++ "_temp.wav"])).files := by
      simp [World.addFile, World.addCall]
    obtain ⟨hf, hd, hdr⟩ := tail_success_keepfalse o
      ((w1.addCall (.ffmpeg (VIDEO_DIR_P ++ rd ++ [name])
          (VIDEO_DIR_P ++ rd ++ [nameStem name ++ "_temp.wav"]))).addFile
          (VIDEO_DIR_P ++ rd ++ [nameStem name ++ "_temp.wav"]))
      (VIDEO_DIR_P ++ rd ++ [nameStem name ++ "_temp.wav"])
      (sd ++ rd ++ [nameStem name ++ ".srt"]) hx hw hu1 hne hdt htw
    refine ⟨hf, hd, ?_⟩
    intro q hq
    rw [hdr]
    show q ∈ w1.dirs
    rw [hdirs1]
    exact List.mem_append_right _ hq
  | true =>
    by_cases hpp : w1.pathExists (VIDEO_DIR_P ++ rd ++ [name]) = true
    · rw [try_keeptrue_present w1 hpp (VIDEO_DIR_P ++ rd ++ [nameStem name ++ "_temp.wav"])
          (sd ++ rd ++ [nameStem name ++ ".srt"])]
      obtain ⟨hf, hd, hdr⟩ := tail_success_keeptrue o w1 (VIDEO_DIR_P ++ rd ++ [name])
        (sd ++ rd ++ [nameStem name ++ ".srt"])
        (VIDEO_DIR_P ++ rd ++ [nameStem name ++ "_temp.wav"]) hx hw
      refine ⟨hf, hd, ?_⟩
      intro q hq
      rw [hdr, hdirs1]
      exact List.mem_append_right _ hq
    · have hpp' : w1.pathExists (VIDEO_DIR_P ++ rd ++ [name]) = false := by
        cases h' : w1.pathExists (VIDEO_DIR_P ++ rd ++ [name])
        · rfl
        · exact absurd h' hpp
      rw [try_keeptrue_absent h3 w1 hpp' (VIDEO_DIR_P ++ rd ++ [nameStem name ++ "_temp.wav"])
          (sd ++ rd ++ [nameStem name ++ ".srt"])]
      obtain ⟨hf, hd, hdr⟩ := tail_success_keeptrue o
        ((w1.addCall (.ffmpeg (VIDEO_DIR_P ++ rd ++ [name])
            (VIDEO_DIR_P ++ rd ++ [nameStem name ++ "_temp.wav"]))).addFile
            (VIDEO_DIR_P ++ rd ++ [nameStem name ++ "_temp.wav"]))
        (VIDEO_DIR_P ++ rd ++ [nameStem name ++ "_temp.wav"])
        (sd ++ rd ++ [nameStem name ++ ".srt"])
        (VIDEO_DIR_P ++ rd ++ [nameStem name ++ "_temp.wav"]) hx hw
      refine ⟨hf, hd, ?_⟩
      intro q hq
      rw [hdr]
      show q ∈ w1.dirs
      rw [hdirs1]
      exact List.mem_append_right _ hq

theorem C8_mirrored_destination_and_parents_witness :
    resFlag (process_video defaultOracle ⟨[["video", "a.mp4"]], [["video"]], []⟩
        (VIDEO_DIR_P ++ [] ++ ["a.mp4"]) SUBTITLE_DIR_P) = some true ∧
    (SUBTITLE_DIR_P ++ [] ++ [nameStem "a.mp4" ++ ".srt"])
      ∈ (resWorld (process_video defaultOracle ⟨[["video", "a.mp4"]], [["video"]], []⟩
          (VIDEO_DIR_P ++ [] ++ ["a.mp4"]) SUBTITLE_DIR_P)).files ∧
    (["subtitle"] : FsPath)
      ∈ (resWorld (process_video defaultOracle ⟨[["video", "a.mp4"]], [["video"]], []⟩
          (VIDEO_DIR_P ++ [] ++ ["a.mp4"]) SUBTITLE_DIR_P)).dirs := by
  obtain ⟨h1, h2, h3⟩ := C8_mirrored_destination_and_parents defaultOracle
    ⟨[["video", "a.mp4"]], [["video"]], []⟩
    ⟨[["video", "a.mp4"]], [["video"], ["subtitle"]], []⟩ [] "a.mp4" SUBTITLE_DIR_P
    (by decide) rfl rfl rfl rfl (by decide) (by decide)
  exact ⟨h1, h2, h3 ["subtitle"] (by decide)⟩

end Subtitle
